import Mathlib

/-!
Verification of the `cx` command-line toolbelt (Cloud 66 CLI).

This development gives a shallow embedding, in Lean, of the pure decision
logic of the CLI commands: stack/org fuzzy resolution, the `stacks list`
fan-out/join, the list filters of `snapshots list` and `formations list`,
the sort comparators, the `snapshots render` output assembly, the
`stacks ssl add` call sequence, the `formations bundle download` target
file computation, and the `formations deploy` workflow hand-off.

Modelling conventions:
* Go strings are Lean `String`s; `strings.ToLower` is modelled by `lowerStr`
  (ASCII case folding, which is what all the claims exercise); the Go
  byte-lexicographic `<` on strings is `strLt` (UTF-8 byte order and code
  point order agree).
* `sort.Sort` / `sort.Strings` are modelled by the insertion sort `sortBy`
  with the comparator taken from the source; the facts proved about sorted
  output (it is a permutation of the input that is pairwise ordered by the
  comparator) are exactly the guarantees the Go sort gives.
* Remote API calls (`client.*`) are oracles passed in as function arguments;
  `fuzzyFind` (helpers, outside the translated sources) is likewise an
  oracle returning an index into the name list it is given.
* `printFatal` terminates the command. Modelled from the spec: the helper
  itself is not among the source files, and the specification describes its
  call sites as "the command terminates fatally"; outcomes reached through
  it are therefore terminal constructors (`fatal…`) carrying what was
  reported, and nothing after a `fatal…` outcome is executed.
-/

namespace Cx

/-- Equality on `Except` results is decidable when it is on both sides. -/
instance [DecidableEq ε] [DecidableEq α] : DecidableEq (Except ε α) := fun x y =>
  match x, y with
  | Except.ok a, Except.ok b =>
    if h : a = b then isTrue (by rw [h])
    else isFalse (by intro hc; cases hc; exact h rfl)
  | Except.error a, Except.error b =>
    if h : a = b then isTrue (by rw [h])
    else isFalse (by intro hc; cases hc; exact h rfl)
  | Except.ok _, Except.error _ => isFalse (by intro hc; cases hc)
  | Except.error _, Except.ok _ => isFalse (by intro hc; cases hc)

/-! ### String primitives -/

/-- ASCII lower-casing of one character, the model of what `strings.ToLower`
does to the characters the claims exercise. -/
def lowerChar (c : Char) : Char :=
  if 65 ≤ c.toNat ∧ c.toNat ≤ 90 then Char.ofNat (c.toNat + 32) else c

/-- Model of Go `strings.ToLower`. -/
def lowerStr (s : String) : String := String.mk (s.data.map lowerChar)

/-- Byte-lexicographic strict comparison on character lists, the model of
the Go `<` on strings (UTF-8 byte order and code point order agree). -/
def strLtAux : List Char → List Char → Bool
  | _, [] => false
  | [], _ :: _ => true
  | a :: as, b :: bs =>
    decide (a.toNat < b.toNat) || (decide (a.toNat = b.toNat) && strLtAux as bs)

/-- The Go `<` on strings. -/
def strLt (a b : String) : Bool := strLtAux a.data b.data

/-! ### Order lemmas for `strLtAux` -/

theorem strLtAux_irrefl : ∀ l : List Char, strLtAux l l = false := by
  intro l
  induction l with
  | nil => rfl
  | cons a as ih => simp [strLtAux, ih]

theorem strLtAux_asymm :
    ∀ l₁ l₂ : List Char, strLtAux l₁ l₂ = true → strLtAux l₂ l₁ = false := by
  intro l₁
  induction l₁ with
  | nil =>
    intro l₂ _
    cases l₂ <;> rfl
  | cons a as ih =>
    intro l₂ h
    cases l₂ with
    | nil => simp [strLtAux] at h
    | cons b bs =>
      simp only [strLtAux, Bool.or_eq_true, Bool.and_eq_true, decide_eq_true_eq] at h ⊢
      simp only [Bool.or_eq_false_iff, Bool.and_eq_false_iff, decide_eq_false_iff_not]
      rcases h with h | ⟨hab, h⟩
      · constructor
        · omega
        · left; omega
      · constructor
        · omega
        · right; exact ih bs h

theorem strLtAux_antisymm :
    ∀ l₁ l₂ : List Char, strLtAux l₁ l₂ = false → strLtAux l₂ l₁ = false → l₁ = l₂ := by
  intro l₁
  induction l₁ with
  | nil =>
    intro l₂ h₁ _
    cases l₂ with
    | nil => rfl
    | cons b bs => simp [strLtAux] at h₁
  | cons a as ih =>
    intro l₂ h₁ h₂
    cases l₂ with
    | nil => simp [strLtAux] at h₂
    | cons b bs =>
      simp only [strLtAux, Bool.or_eq_false_iff, Bool.and_eq_false_iff,
        decide_eq_false_iff_not] at h₁ h₂
      have hab : a.toNat = b.toNat := by omega
      have ha : a = b := by
        have := congrArg Char.ofNat hab
        rwa [Char.ofNat_toNat, Char.ofNat_toNat] at this
      have has : as = bs := by
        apply ih
        · rcases h₁.2 with h | h
          · omega
          · exact h
        · rcases h₂.2 with h | h
          · omega
          · exact h
      rw [ha, has]

theorem strLtAux_notlt_trans :
    ∀ l₁ l₂ l₃ : List Char, strLtAux l₁ l₂ = false → strLtAux l₂ l₃ = false →
      strLtAux l₁ l₃ = false := by
  intro l₁
  induction l₁ with
  | nil =>
    intro l₂ l₃ h₁ h₂
    cases l₂ with
    | nil => exact h₂
    | cons b bs => simp [strLtAux] at h₁
  | cons a as ih =>
    intro l₂ l₃ h₁ h₂
    cases l₃ with
    | nil => rfl
    | cons c cs =>
      cases l₂ with
      | nil => simp [strLtAux] at h₂
      | cons b bs =>
        simp only [strLtAux, Bool.or_eq_false_iff, Bool.and_eq_false_iff,
          decide_eq_false_iff_not] at h₁ h₂ ⊢
        constructor
        · omega
        · by_cases hac : a.toNat = c.toNat
          · right
            have hab : a.toNat = b.toNat := by omega
            rcases h₁.2 with h | h
            · omega
            · rcases h₂.2 with h2 | h2
              · omega
              · exact ih bs cs h h2
          · left; exact hac

/-! ### Records for the SDK data the commands consume -/

/-- The fields of `cloud66.Stack` the translated commands read. -/
structure Stack where
  uid : String
  name : String
  environment : String
  accountName : String
  deriving Repr, DecidableEq

/-- The fields of `cloud66.Snapshot` the translated commands read;
`triggeredAtUnix` is `TriggeredAt.Unix()` (seconds). -/
structure Snapshot where
  uid : String
  triggeredAtUnix : Int
  deriving Repr, DecidableEq

/-- The fields of `cloud66.Formation` the translated commands read. -/
structure Formation where
  uid : String
  name : String
  deriving Repr, DecidableEq

/-- The fields of `cloud66.Account` the translated commands read. -/
structure Account where
  name : String
  deriving Repr, DecidableEq

/-- The fields of `cloud66.SslCertificate` the translated commands read. -/
structure SslCertificate where
  uuid : String
  deriving Repr, DecidableEq

/-- One rendered stencil of `cloud66.Renders.Stencils`. -/
structure RenderedStencil where
  filename : String
  content : String
  sequence : Int
  deriving Repr, DecidableEq

/-! ### The sorting used by the list printers

`sort.Sort` sorts in the order induced by the comparator `Less`; the model
is an insertion sort parameterised by the same `Less`, and the lemmas below
prove the two guarantees the printers rely on: the output is a permutation of
the input, and it is pairwise ordered consistently with `Less`. -/

/-- Insert `x` in front of the first element `y` with `less x y`. -/
def insertBy (less : α → α → Bool) (x : α) : List α → List α
  | [] => [x]
  | y :: ys => if less x y then x :: y :: ys else y :: insertBy less x ys

/-- Model of Go `sort.Sort` with comparator `less`. -/
def sortBy (less : α → α → Bool) : List α → List α
  | [] => []
  | x :: xs => insertBy less x (sortBy less xs)

theorem insertBy_perm (less : α → α → Bool) (x : α) :
    ∀ l : List α, (insertBy less x l).Perm (x :: l) := by
  intro l
  induction l with
  | nil => exact List.Perm.refl _
  | cons y ys ih =>
    by_cases h : less x y = true
    · simp [insertBy, h]
    · simp only [insertBy, h]
      exact (List.Perm.cons y ih).trans (List.Perm.swap x y ys)

theorem sortBy_perm (less : α → α → Bool) :
    ∀ l : List α, (sortBy less l).Perm l := by
  intro l
  induction l with
  | nil => exact List.Perm.refl _
  | cons x xs ih =>
    exact ((insertBy_perm less x (sortBy less xs)).trans (List.Perm.cons x ih))

theorem mem_insertBy (less : α → α → Bool) (x : α) (l : List α) (c : α) :
    c ∈ insertBy less x l ↔ c = x ∨ c ∈ l := by
  rw [(insertBy_perm less x l).mem_iff]
  simp

theorem pairwise_insertBy (le : α → α → Prop) (less : α → α → Bool)
    (h1 : ∀ a b, less a b = true → le a b)
    (h2 : ∀ a b, less a b = false → le b a)
    (htrans : ∀ a b c, le a b → le b c → le a c)
    (x : α) :
    ∀ l : List α, l.Pairwise le → (insertBy less x l).Pairwise le := by
  intro l
  induction l with
  | nil =>
    intro _
    simp [insertBy]
  | cons y ys ih =>
    intro hp
    rcases List.pairwise_cons.mp hp with ⟨hy, hys⟩
    by_cases h : less x y = true
    · simp only [insertBy, h, if_true]
      refine List.pairwise_cons.mpr ⟨?_, hp⟩
      intro c hc
      rcases List.mem_cons.mp hc with rfl | hc
      · exact h1 x c h
      · exact htrans x y c (h1 x y h) (hy c hc)
    · simp only [insertBy, h, if_false]
      refine List.pairwise_cons.mpr ⟨?_, ih hys⟩
      intro c hc
      rcases (mem_insertBy less x ys c).mp hc with hcx | hc
      · rw [hcx]; exact h2 x y (Bool.eq_false_iff.mpr h)
      · exact hy c hc

theorem pairwise_sortBy (le : α → α → Prop) (less : α → α → Bool)
    (h1 : ∀ a b, less a b = true → le a b)
    (h2 : ∀ a b, less a b = false → le b a)
    (htrans : ∀ a b c, le a b → le b c → le a c) :
    ∀ l : List α, (sortBy less l).Pairwise le := by
  intro l
  induction l with
  | nil => simp [sortBy]
  | cons x xs ih => exact pairwise_insertBy le less h1 h2 htrans x _ ih

/-! ### The comparators (stacks.go, formation.go, snapshots source) -/

/-- `stacksByAccountThenName.Less` (stacks.go:583-589), verbatim:
`accName1 < accName2 || (accName1 < accName2 && name1 < name2)`. -/
def stacksByAccountThenNameLess (a b : Stack) : Bool :=
  let accName1 := lowerStr a.accountName
  let accName2 := lowerStr b.accountName
  let name1 := lowerStr a.name
  let name2 := lowerStr b.name
  strLt accName1 accName2 || (strLt accName1 accName2 && strLt name1 name2)

/-- `snapshotsByDate.Less` (snapshots source, lines 232-234):
`a[i].TriggeredAt.Unix() >= a[j].TriggeredAt.Unix()`. -/
def snapshotsByDateLess (a b : Snapshot) : Bool :=
  decide (b.triggeredAtUnix ≤ a.triggeredAtUnix)

/-- `formationByName.Less` (formation.go:850): `a[i].Name < a[j].Name`. -/
def formationByNameLess (a b : Formation) : Bool := strLt a.name b.name

/-! ### `stacks list` with name arguments (stacks.go:437-505) -/

/-- The buffered channel traffic of `listStacks` (stacks.go:451-465): one
item per argument name - `nil` sent directly for an empty name (without a
goroutine), otherwise the result of the `StackInfoWithEnvironment` lookup
goroutine started for that name. -/
def channelItems (lookup : String → Except E Stack) (names : List String) :
    List (Except E (Option Stack)) :=
  names.map (fun n => if n = "" then Except.ok none else (lookup n).map some)

/-- The join loop of `listStacks` (stacks.go:466-475): one reception per
name; an error received is fatal with that error, a `nil` stack is dropped,
a stack is appended. -/
def joinResults : List (Except E (Option Stack)) → Except E (List Stack)
  | [] => Except.ok []
  | Except.error e :: _ => Except.error e
  | Except.ok none :: rest => joinResults rest
  | Except.ok (some s) :: rest => (joinResults rest).map (fun l => s :: l)

/-- `listStacks` on a non-empty argument list (stacks.go:451-476), with the
per-name lookup as an oracle; `Except.error` is the fatal termination via
`printFatal`. -/
def listStacks (lookup : String → Except E Stack) (names : List String) :
    Except E (List Stack) :=
  joinResults (channelItems lookup names)

/-- The rows printed by `printStackList` (stacks.go:480-505): sort with
`stacksByAccountThenName`, then print exactly the stacks whose name is
non-empty. -/
def printStackList (stackList : List Stack) : List Stack :=
  (sortBy stacksByAccountThenNameLess stackList).filter (fun s => s.name != "")

/-- The error of an `Except`, if any. -/
def errOpt : Except E α → Option E
  | Except.error e => some e
  | Except.ok _ => none

/-- The stacks the lookups fetch for the non-empty names, in argument order. -/
def fetchedStacks (lookup : String → Except E Stack) (names : List String) :
    List Stack :=
  (names.filter (fun n => n != "")).filterMap (fun n => (lookup n).toOption)

/-- The first lookup error in the join order of the model. -/
def firstLookupError (lookup : String → Except E Stack) (names : List String) :
    Option E :=
  names.findSome? (fun n => if n = "" then none else errOpt (lookup n))

/-! ### Stack resolution (main source, lines 633-739) -/

/-- `filterByEnvironmentExact` (main source, lines 633-638), with the
`--environment` flag value as a parameter. -/
def filterByEnvironmentExact (flagEnvironment : String) (item : Stack) : Bool :=
  if flagEnvironment = "" then true
  else lowerStr item.environment == lowerStr flagEnvironment

/-- `filterByEnvironmentFuzzy` (main source, lines 640-645):
`strings.HasPrefix(ToLower(environment), ToLower(flag))`. -/
def filterByEnvironmentFuzzy (flagEnvironment : String) (item : Stack) : Bool :=
  if flagEnvironment = "" then true
  else (lowerStr flagEnvironment).data.isPrefixOf (lowerStr item.environment).data

/-- The partial-name branch of `stack` (main source, lines 696-730): list the
stacks through the exact environment filter and fuzzy-find the partial name
among their names; on a fuzzy-find error, relist through the fuzzy
environment filter and retry, propagating only the second error. The
`StackListWithFilter` of the client applies the given predicate to the account
stacks; `fuzzyFind` (a helper outside the translated sources) is an oracle
returning an index into the name list it is given (its third Go argument is
the constant `false` and is dropped). -/
def stack (allStacks : List Stack) (flagEnvironment stackArg : String)
    (fuzzyFind : List String → String → Except String Nat) :
    Except String Stack :=
  let stackList := allStacks.filter (filterByEnvironmentExact flagEnvironment)
  match fuzzyFind (stackList.map (fun s => s.name)) stackArg with
  | Except.ok idx =>
    match stackList.get? idx with
    | some s => Except.ok s
    | none => Except.error "index out of range"
  | Except.error _ =>
    let stackList2 := allStacks.filter (filterByEnvironmentFuzzy flagEnvironment)
    match fuzzyFind (stackList2.map (fun s => s.name)) stackArg with
    | Except.ok idx =>
      match stackList2.get? idx with
      | some s => Except.ok s
      | none => Except.error "index out of range"
    | Except.error e => Except.error e

/-! ### Organization resolution (main source, lines 647-683) -/

/-- The name-collection loop of `org` (main source, lines 665-671): an
organization with an empty name aborts with an error before any fuzzy
match. -/
def buildOrgNames : List Account → Except String (List String)
  | [] => Except.ok []
  | o :: rest =>
    if o.name = "" then
      Except.error "one or more of the organizations you are a member of has no name. Please make sure you name the organizations"
    else (buildOrgNames rest).map (fun names => o.name :: names)

/-- `org` (main source, lines 647-683), with the `--org` flag value, the
profile organization, the account list `AccountInfos` returns and the
fuzzy-find oracle passed in; returns `none` (and no error) when neither an
`--org` value nor a profile organization is set. -/
def org (orgFlag profileOrganization : String) (orgs : List Account)
    (fuzzyFind : List String → String → Except String Nat) :
    Except String (Option Account) :=
  if orgFlag ≠ "" ∨ profileOrganization ≠ "" then
    let orgToFind := if orgFlag ≠ "" then orgFlag else profileOrganization
    match buildOrgNames orgs with
    | Except.error e => Except.error e
    | Except.ok orgNames =>
      match fuzzyFind orgNames orgToFind with
      | Except.error e => Except.error e
      | Except.ok idx =>
        match orgs.get? idx with
        | some o => Except.ok (some o)
        | none => Except.error "index out of range"
  else Except.ok none

/-! ### `snapshots list` / `formations list` filtering (snapshots source
lines 91-120, formation.go:321-350) -/

/-- `sort.SearchStrings` composed with the equality test at its result
(snapshots source line 113-114, formation.go:343-344): find the first entry
of the sorted name list not below `x`, and compare `ToLower` of that entry
with `x` (where `x` is already the lower-cased UID/name). -/
def searchEq : List String → String → Bool
  | [], _ => false
  | a :: rest, x => if strLt a x then searchEq rest x else lowerStr a == x

/-- The filter of `runSnapshots` (snapshots source, lines 101-117):
lower-case the arguments in place, sort them, keep the snapshots whose
lower-cased UID searches to an equal entry. -/
def runSnapshotsFilter (snapshots : List Snapshot) (args : List String) :
    List Snapshot :=
  let snapshotNames := sortBy strLt (args.map lowerStr)
  snapshots.filter (fun i => searchEq snapshotNames (lowerStr i.uid))

/-- The filter of `runListFormations` (formation.go:331-347), same scheme on
formation names. -/
def runListFormationsFilter (formations : List Formation) (args : List String) :
    List Formation :=
  let formationNames := sortBy strLt (args.map lowerStr)
  formations.filter (fun i => searchEq formationNames (lowerStr i.name))

/-- The rows printed by `printSnapshotList` (snapshots source, lines
202-215): sort by date, print the entries with a non-empty UID. -/
def printSnapshotList (snapshots : List Snapshot) : List Snapshot :=
  (sortBy snapshotsByDateLess snapshots).filter (fun a => a.uid != "")

/-- The rows printed by `printFormationList` (formation.go:825-844): sort by
name, print the entries with a non-empty name. -/
def printFormationList (formations : List Formation) : List Formation :=
  (sortBy formationByNameLess formations).filter (fun a => a.name != "")

/-- The snapshot `runRenders` (snapshots source, lines 136-145) and
`renderStencil` (formation.go:1001-1012) select for `latest`:
`snapshots[0]` after `sort.Sort(snapshotsByDate(snapshots))`. -/
def selectLatestSnapshot (snapshots : List Snapshot) : Option Snapshot :=
  (sortBy snapshotsByDateLess snapshots).head?

/-! ### `snapshots render` output (snapshots source, lines 122-200) -/

/-- Go `%03d`: decimal, zero-padded to width three. -/
def pad3 (n : Nat) : String :=
  let s := Nat.repr n
  if s.length < 3 then String.mk (List.replicate (3 - s.length) '0') ++ s else s

/-- `filepath.Join` for the two shapes `runRenders` builds (an already clean
directory and a clean file name): `Join("", f) = f`, else `dir + "/" + f`. -/
def filepathJoin (dir f : String) : String :=
  if dir = "" then f else dir ++ "/" ++ f

/-- `generateYamlComment` (snapshots source, lines 198-200), the verbatim
four-line comment header. -/
def generateYamlComment (filename snapshot formation : String) (sequence : Int) :
    String :=
  "# Stencil: " ++ filename ++ "\n# Formation: " ++ formation ++
    "\n# Snapshot: " ++ snapshot ++ "\n# Sequence: " ++ toString sequence ++ "\n"

/-- The content loop of `runRenders` (snapshots source, lines 176-195),
walking the rendered stencils with index `idx`: with a non-empty `outdir`
each stencil becomes one file, otherwise the separator, the comment (built
on the joined `filename`, which for an empty `outdir` is the sequenced
name) and the content are appended to the stdout buffer. Returns the files
written and the stdout buffer. -/
def runRendersLoop (outdir snapshotUID formationUID : String) :
    List RenderedStencil → Nat → List (String × String) × String
  | [], _ => ([], "")
  | v :: rest, idx =>
    let filename := filepathJoin outdir (pad3 (idx + 1) ++ "_" ++ v.filename)
    let next := runRendersLoop outdir snapshotUID formationUID rest (idx + 1)
    if outdir ≠ "" then
      let content :=
        generateYamlComment v.filename snapshotUID formationUID v.sequence ++ v.content
      ((filename, content) :: next.1, next.2)
    else
      (next.1,
        "\n---\n" ++ generateYamlComment filename snapshotUID formationUID v.sequence ++
          "\n" ++ v.content ++ next.2)

/-- The content section of `runRenders` (snapshots source, lines 176-195). -/
def runRendersContent (outdir snapshotUID formationUID : String)
    (stencils : List RenderedStencil) : List (String × String) × String :=
  runRendersLoop outdir snapshotUID formationUID stencils 0

/-! ### `stacks ssl add` (stacks-ssl.go:63-104) -/

/-- A mutating SSL endpoint call. -/
inductive SslCall where
  | createSslCertificate
  | updateSslCertificate (uuid : String)
  deriving Repr, DecidableEq

/-- What an `stacks ssl add` run did: the mutating calls it made, and the
fatal message it ended with, if any. -/
structure SslOutcome where
  calls : List SslCall
  fatal : Option String
  deriving Repr, DecidableEq

/-- `addSSLCertificate` (stacks-ssl.go:63-104), with the certificate list
returned by the initial `ListSslCertificates`, the `--overwrite` flag, the
result of `generateSSLCertificate` and the error behaviour of the mutating
endpoint passed in. -/
def addSSLCertificate (sslCertificates : List SslCertificate) (overwrite : Bool)
    (generated : Except String Unit) (apiError : SslCall → Option String) :
    SslOutcome :=
  match sslCertificates with
  | [] =>
    match generated with
    | Except.error e => ⟨[], some e⟩
    | Except.ok _ =>
      ⟨[SslCall.createSslCertificate], apiError SslCall.createSslCertificate⟩
  | c :: _ =>
    if !overwrite then
      ⟨[], some "SSL certificate already exists for this application. Please use the --overwrite flag if you want to overwrite the existing certificate."⟩
    else
      match generated with
      | Except.error e => ⟨[], some e⟩
      | Except.ok _ =>
        ⟨[SslCall.updateSslCertificate c.uuid],
          apiError (SslCall.updateSslCertificate c.uuid)⟩

/-! ### `formations bundle download` (formation.go:566-606) -/

/-- Characters that end the backwards scan of `filepath.Ext`: the dot and
the path separator. -/
def notExtStop (c : Char) : Bool := c != '.' && c != '/'

/-- Go `filepath.Ext`: the suffix of the final path element beginning at its
final dot, empty when the final element has no dot (the backwards scan stops
at the first dot or separator). -/
def filepathExt (s : String) : String :=
  match s.data.reverse.dropWhile notExtStop with
  | [] => ""
  | c :: _ =>
    if c = '.' then String.mk ('.' :: (s.data.reverse.takeWhile notExtStop).reverse)
    else ""

/-- The bundle file name `runBundleDownload` targets (formation.go:574-581):
default to the formation name, then append `.formation` whenever the
extension differs. -/
def bundleTargetFile (formationName fileFlag : String) : String :=
  let bundleFile := if fileFlag = "" then formationName else fileFlag
  if filepathExt bundleFile ≠ ".formation" then bundleFile ++ ".formation"
  else bundleFile

/-- One step of `runBundleDownload`; a `fatal…` step ends the run. -/
inductive BundleStep where
  | fatalNoFormation
  | fatalAlreadyExists (file : String)
  | fetchEnvVars
  | fetchFormations
  | bundle (file : String)
  | fatalNoFormationFound
  deriving Repr, DecidableEq

/-- The step sequence of `runBundleDownload` (formation.go:566-606): flag
check, target-file computation, existence/overwrite check, then the
`StackEnvVars` and `Formations` fetches and the bundling of the formation
matching the name exactly. -/
def runBundleDownload (formationName fileFlag : String) (overwrite : Bool)
    (fileOnDisk : String → Bool) (formationNames : List String) :
    List BundleStep :=
  if formationName = "" then [BundleStep.fatalNoFormation]
  else
    let bundleFile := bundleTargetFile formationName fileFlag
    if fileOnDisk bundleFile && !overwrite then
      [BundleStep.fatalAlreadyExists bundleFile]
    else
      [BundleStep.fetchEnvVars, BundleStep.fetchFormations] ++
        (if formationNames.contains formationName then
          [BundleStep.bundle bundleFile]
        else [BundleStep.fatalNoFormationFound])

/-! ### `formations deploy` (formation.go:505-564) -/

/-- The `trackman` workflow options `runDeployFormation` builds:
`Concurrency` and `Timeout` (nanoseconds, Go `time.Duration`). -/
structure WorkflowOptions where
  concurrency : Int
  timeoutNanoseconds : Int
  deriving Repr, DecidableEq

/-- How a `formations deploy` run ends; a `fatal…` outcome terminates the
command at the error it carries (`printFatal`), so nothing after it is
reported. -/
inductive DeployOutcome (E : Type) where
  | fatalMsg (msg : String)
  | fatalError (e : E)
  | success
  deriving Repr, DecidableEq

/-- The errors a deploy outcome reports. -/
def reportedErrors : DeployOutcome E → List E
  | DeployOutcome.fatalError e => [e]
  | _ => []

/-- `runDeployFormation` (formation.go:505-564): exact-name formation lookup
(first match), snapshot UID defaulting to `latest`, `GetWorkflow` download,
then the hand-off to the workflow library with
`Concurrency: runtime.NumCPU() - 1` and `Timeout: 10 * time.Minute`;
the aggregate run errors of `workflow.Run` are fatal first, its step errors
after. -/
def runDeployFormation (formations : List Formation)
    (formationFlag snapshotFlag : String) (useLatest : Bool) (numCPU : Int)
    (getWorkflow : String → String → Bool → Except E String)
    (runWorkflow : String → WorkflowOptions → Option E × Option E) :
    DeployOutcome E :=
  if formationFlag = "" then
    DeployOutcome.fatalMsg "No formation provided. Please use --formation to specify a formation"
  else
    match formations.find? (fun f => f.name == formationFlag) with
    | none => DeployOutcome.fatalMsg "Formation with that name could not be found"
    | some formation =>
      let snapshotUID := if snapshotFlag = "" then "latest" else snapshotFlag
      match getWorkflow formation.uid snapshotUID useLatest with
      | Except.error e => DeployOutcome.fatalError e
      | Except.ok workflow =>
        let options : WorkflowOptions := ⟨numCPU - 1, 10 * 60 * 1000000000⟩
        match runWorkflow workflow options with
        | (some runErrors, _) => DeployOutcome.fatalError runErrors
        | (none, some stepErrors) => DeployOutcome.fatalError stepErrors
        | (none, none) => DeployOutcome.success

/-! ### Lemmas about the string order and case folding -/

theorem strLt_irrefl (a : String) : strLt a a = false := strLtAux_irrefl a.data

theorem strLt_asymm {a b : String} (h : strLt a b = true) : strLt b a = false :=
  strLtAux_asymm a.data b.data h

theorem strLt_antisymm {a b : String} (h₁ : strLt a b = false)
    (h₂ : strLt b a = false) : a = b := by
  cases a with
  | mk da =>
    cases b with
    | mk db =>
      have : da = db := strLtAux_antisymm da db h₁ h₂
      rw [this]

theorem strLt_notlt_trans {a b c : String} (h₁ : strLt a b = false)
    (h₂ : strLt b c = false) : strLt a c = false :=
  strLtAux_notlt_trans a.data b.data c.data h₁ h₂

theorem lowerChar_idem (c : Char) : lowerChar (lowerChar c) = lowerChar c := by
  by_cases h : 65 ≤ c.toNat ∧ c.toNat ≤ 90
  · have hc : lowerChar c = Char.ofNat (c.toNat + 32) := by
      simp [lowerChar, h]
    rw [hc]
    obtain ⟨h1, h2⟩ := h
    interval_cases hcn : c.toNat <;> decide
  · simp [lowerChar, h]

theorem lowerStr_idem (s : String) : lowerStr (lowerStr s) = lowerStr s := by
  unfold lowerStr
  congr 1
  rw [List.map_map]
  apply List.map_congr_left
  intro a _
  exact lowerChar_idem a

/-! ### C4 -/

/-- C4: `stacksByAccountThenName.Less` holds exactly when the lower-cased
account name of the left stack is strictly below that of the right; the stack
names never affect the outcome, and two stacks with the same lower-cased
account name compare as equivalent (`Less` is false both ways) whatever
their names are. -/
theorem claimC4 (a b : Stack) :
    stacksByAccountThenNameLess a b =
      strLt (lowerStr a.accountName) (lowerStr b.accountName)
    ∧ (∀ n₁ n₂ : String,
        stacksByAccountThenNameLess { a with name := n₁ } { b with name := n₂ } =
          stacksByAccountThenNameLess a b)
    ∧ (lowerStr a.accountName = lowerStr b.accountName →
        stacksByAccountThenNameLess a b = false ∧
          stacksByAccountThenNameLess b a = false) := by
  have key : ∀ x y : Stack, stacksByAccountThenNameLess x y =
      strLt (lowerStr x.accountName) (lowerStr y.accountName) := by
    intro x y
    unfold stacksByAccountThenNameLess
    cases h : strLt (lowerStr x.accountName) (lowerStr y.accountName) <;> simp [h]
  refine ⟨key a b, ?_, ?_⟩
  · intro n₁ n₂
    rw [key, key]
  · intro h
    rw [key, key, h, strLt_irrefl]
    exact ⟨rfl, rfl⟩

/-- Witness for C4 at two concrete stacks with equal accounts up to case and
different names: neither compares below the other. -/
theorem claimC4_witness :
    stacksByAccountThenNameLess ⟨"u1", "alpha", "production", "Acme"⟩
        ⟨"u2", "beta", "staging", "acme"⟩ = false ∧
      stacksByAccountThenNameLess ⟨"u2", "beta", "staging", "acme"⟩
        ⟨"u1", "alpha", "production", "Acme"⟩ = false :=
  (claimC4 ⟨"u1", "alpha", "production", "Acme"⟩
    ⟨"u2", "beta", "staging", "acme"⟩).2.2 (by decide)

/-! ### C5 -/

/-- C5: `snapshotsByDate.Less i j` holds exactly when the `TriggeredAt` Unix
time of snapshot `i` is at least that of snapshot `j` (so it holds for equal
timestamps and is not irreflexive), and on any non-empty list the element
at index 0 after sorting with it - the snapshot `snapshots render` and
stencil rendering select for `latest` - is triggered no earlier than every
element of the list. -/
theorem claimC5 (a b : Snapshot) (l : List Snapshot) (hne : l ≠ []) :
    (snapshotsByDateLess a b = true ↔ b.triggeredAtUnix ≤ a.triggeredAtUnix)
    ∧ snapshotsByDateLess a a = true
    ∧ (∃ s, selectLatestSnapshot l = some s ∧
        ∀ x ∈ l, x.triggeredAtUnix ≤ s.triggeredAtUnix) := by
  refine ⟨by simp [snapshotsByDateLess], by simp [snapshotsByDateLess], ?_⟩
  have hpw : (sortBy snapshotsByDateLess l).Pairwise
      (fun x y => y.triggeredAtUnix ≤ x.triggeredAtUnix) := by
    apply pairwise_sortBy (fun x y => y.triggeredAtUnix ≤ x.triggeredAtUnix)
      snapshotsByDateLess
    · intro x y h
      simpa [snapshotsByDateLess] using h
    · intro x y h
      simp only [snapshotsByDateLess, decide_eq_false_iff_not, not_le] at h
      exact le_of_lt h
    · intro x y z h₁ h₂
      exact le_trans h₂ h₁
  cases hs : sortBy snapshotsByDateLess l with
  | nil =>
    exfalso
    have := (sortBy_perm snapshotsByDateLess l).length_eq
    rw [hs] at this
    exact hne (List.length_eq_zero.mp this.symm)
  | cons s rest =>
    refine ⟨s, by simp [selectLatestSnapshot, hs], ?_⟩
    intro x hx
    have hx2 : x ∈ s :: rest := by
      rw [← hs, (sortBy_perm snapshotsByDateLess l).mem_iff]
      exact hx
    rcases List.mem_cons.mp hx2 with rfl | hx3
    · exact le_refl _
    · rw [hs] at hpw
      exact (List.pairwise_cons.mp hpw).1 x hx3

/-- Witness for C5 at a concrete three-snapshot list with a tied maximum. -/
theorem claimC5_witness :
    (snapshotsByDateLess ⟨"s1", 5⟩ ⟨"s2", 9⟩ = true ↔ (9 : Int) ≤ 5) ∧
      snapshotsByDateLess ⟨"s1", 5⟩ ⟨"s1", 5⟩ = true ∧
      (∃ s, selectLatestSnapshot [⟨"s1", 5⟩, ⟨"s2", 9⟩, ⟨"s3", 9⟩] = some s ∧
        ∀ x ∈ [(⟨"s1", 5⟩ : Snapshot), ⟨"s2", 9⟩, ⟨"s3", 9⟩],
          x.triggeredAtUnix ≤ s.triggeredAtUnix) :=
  claimC5 ⟨"s1", 5⟩ ⟨"s2", 9⟩ [⟨"s1", 5⟩, ⟨"s2", 9⟩, ⟨"s3", 9⟩] (by decide)

/-! ### C1 -/

theorem listStacks_characterization (lookup : String → Except E Stack) :
    ∀ names : List String, listStacks lookup names =
      (match firstLookupError lookup names with
       | some e => Except.error e
       | none => Except.ok (fetchedStacks lookup names)) := by
  intro names
  induction names with
  | nil => rfl
  | cons n rest ih =>
    by_cases hn : n = ""
    · subst hn
      have h1 : listStacks lookup ("" :: rest) = listStacks lookup rest := by
        simp [listStacks, channelItems, joinResults]
      have h2 : firstLookupError lookup ("" :: rest) = firstLookupError lookup rest := by
        simp [firstLookupError]
      have h3 : fetchedStacks lookup ("" :: rest) = fetchedStacks lookup rest := by
        simp [fetchedStacks]
      rw [h1, h2, h3, ih]
    · cases hl : lookup n with
      | error e =>
        have h1 : listStacks lookup (n :: rest) = Except.error e := by
          simp [listStacks, channelItems, hn, hl, joinResults, Except.map]
        have h2 : firstLookupError lookup (n :: rest) = some e := by
          simp [firstLookupError, hn, hl, errOpt]
        rw [h1, h2]
      | ok s =>
        have h1 : listStacks lookup (n :: rest) =
            (listStacks lookup rest).map (fun l => s :: l) := by
          simp [listStacks, channelItems, hn, hl, joinResults, Except.map]
        have h2 : firstLookupError lookup (n :: rest) = firstLookupError lookup rest := by
          simp [firstLookupError, hn, hl, errOpt]
        have h3 : fetchedStacks lookup (n :: rest) = s :: fetchedStacks lookup rest := by
          simp [fetchedStacks, hn, hl, Except.toOption]
        rw [h1, h2, h3, ih]
        cases firstLookupError lookup rest with
        | some e => rfl
        | none => rfl

/-- C1: joining `stacks list` over a non-empty list of `N` names receives
exactly `N` channel results (empty names contribute a `nil` directly); the
command is fatal with the first lookup error received when any lookup
fails, and otherwise succeeds with the stacks fetched for the non-empty
names — of which the printed table shows exactly those with a non-empty
stack name. -/
theorem claimC1 (lookup : String → Except E Stack) (names : List String)
    (_hne : names ≠ []) :
    (channelItems lookup names).length = names.length
    ∧ listStacks lookup names =
        (match firstLookupError lookup names with
         | some e => Except.error e
         | none => Except.ok (fetchedStacks lookup names))
    ∧ (∀ sl, listStacks lookup names = Except.ok sl →
        (printStackList sl).Perm (sl.filter (fun s => s.name != ""))) := by
  refine ⟨by simp [channelItems], listStacks_characterization lookup names, ?_⟩
  intro sl _
  exact (sortBy_perm stacksByAccountThenNameLess sl).filter _

/-- Witness for C1 at two names, one of them empty, with an always-ok
lookup: exactly two channel results are joined. -/
theorem claimC1_witness :
    (channelItems (fun _ => (Except.ok ⟨"u1", "web", "production", "acme"⟩ :
        Except String Stack)) ["web", ""]).length = 2 :=
  (claimC1 (fun _ => Except.ok ⟨"u1", "web", "production", "acme"⟩)
    ["web", ""] (by decide)).1

/-- Counterexample to C1 as stated: a lookup can return a stack whose name
is empty; the join succeeds with that stack, yet the printed table omits
it, so the table does not contain exactly the fetched stacks. -/
theorem claimC1_counterexample :
    listStacks (fun _ => (Except.ok ⟨"uid1", "", "production", "acme"⟩ :
        Except String Stack)) ["mystack"] =
      Except.ok [⟨"uid1", "", "production", "acme"⟩]
    ∧ printStackList [⟨"uid1", "", "production", "acme"⟩] = []
    ∧ ([] : List Stack) ≠ [⟨"uid1", "", "production", "acme"⟩] :=
  ⟨by decide, by decide, by decide⟩

/-! ### C2 -/

/-- C2 (amended): `formations deploy` downloads the workflow of the
formation found by exact name (and of the snapshot UID, defaulting to
`latest`), hands it to the workflow-execution library configured with
concurrency `NumCPU - 1` and a timeout of ten minutes
(`10 * 60 * 10^9` nanoseconds), and reports the aggregate run errors
fatally when present; the per-step errors are reported only when there are
no aggregate run errors. -/
theorem claimC2 (formations : List Formation) (formationFlag snapshotFlag : String)
    (useLatest : Bool) (numCPU : Int)
    (getWorkflow : String → String → Bool → Except E String)
    (runWorkflow : String → WorkflowOptions → Option E × Option E)
    (formation : Formation) (workflow : String)
    (hflag : formationFlag ≠ "")
    (hfind : formations.find? (fun f => f.name == formationFlag) = some formation)
    (hwf : getWorkflow formation.uid
        (if snapshotFlag = "" then "latest" else snapshotFlag) useLatest =
      Except.ok workflow) :
    runDeployFormation formations formationFlag snapshotFlag useLatest numCPU
        getWorkflow runWorkflow =
      (match runWorkflow workflow ⟨numCPU - 1, 10 * 60 * 1000000000⟩ with
       | (some runErrors, _) => DeployOutcome.fatalError runErrors
       | (none, some stepErrors) => DeployOutcome.fatalError stepErrors
       | (none, none) => DeployOutcome.success) := by
  unfold runDeployFormation
  simp only [if_neg hflag, hfind, hwf]

/-- Witness for C2: a concrete deploy whose workflow run reports no errors
succeeds. -/
theorem claimC2_witness :
    runDeployFormation [⟨"fmuid", "fm"⟩] "fm" "" true 4
      (fun _ _ _ => (Except.ok "wf" : Except String String))
      (fun _ _ => (none, none)) = DeployOutcome.success :=
  claimC2 [⟨"fmuid", "fm"⟩] "fm" "" true 4
    (fun _ _ _ => Except.ok "wf") (fun _ _ => (none, none))
    ⟨"fmuid", "fm"⟩ "wf" (by decide) (by decide) (by decide)

/-- Counterexample to C2 as stated: when the workflow run returns both an
aggregate run error and a step error, the command terminates fatally at the
run error and the step error is never reported, so it does not report both. -/
theorem claimC2_counterexample :
    runDeployFormation [⟨"fmuid", "fm"⟩] "fm" "" true 4
        (fun _ _ _ => (Except.ok "wf" : Except String String))
        (fun _ _ => (some "runboom", some "stepboom")) =
      DeployOutcome.fatalError "runboom"
    ∧ "stepboom" ∉ reportedErrors (runDeployFormation [⟨"fmuid", "fm"⟩] "fm" "" true 4
        (fun _ _ _ => (Except.ok "wf" : Except String String))
        (fun _ _ => (some "runboom", some "stepboom"))) :=
  ⟨by decide, by decide⟩

/-! ### C3 -/

/-- C3: with a partial stack name, resolution first filters the stack list
to the stacks whose environment equals the `--environment` value exactly up
to case (no filtering when the flag is empty) and fuzzy-matches the partial
name against those names; when the match fails it retries with the filter
weakened to a case-insensitive prefix test on the environment, and it
errors only when the fuzzy match fails on the second list too (with that
second error). `fuzzyFind` is any resolver returning indices into the list
it is given. -/
theorem claimC3 (allStacks : List Stack) (flagEnvironment stackArg : String)
    (fuzzyFind : List String → String → Except String Nat)
    (hvalid : ∀ names s idx, fuzzyFind names s = Except.ok idx → idx < names.length) :
    (∀ s : Stack, s ∈ allStacks.filter (filterByEnvironmentExact flagEnvironment) ↔
        s ∈ allStacks ∧ (flagEnvironment = "" ∨
          lowerStr s.environment = lowerStr flagEnvironment))
    ∧ (∀ s : Stack, s ∈ allStacks.filter (filterByEnvironmentFuzzy flagEnvironment) ↔
        s ∈ allStacks ∧ (flagEnvironment = "" ∨
          (lowerStr flagEnvironment).data <+: (lowerStr s.environment).data))
    ∧ (∀ idx, fuzzyFind ((allStacks.filter
          (filterByEnvironmentExact flagEnvironment)).map (fun s => s.name)) stackArg =
            Except.ok idx →
        ∃ s, (allStacks.filter (filterByEnvironmentExact flagEnvironment)).get? idx =
            some s ∧
          stack allStacks flagEnvironment stackArg fuzzyFind = Except.ok s)
    ∧ (∀ e idx, fuzzyFind ((allStacks.filter
          (filterByEnvironmentExact flagEnvironment)).map (fun s => s.name)) stackArg =
            Except.error e →
        fuzzyFind ((allStacks.filter
          (filterByEnvironmentFuzzy flagEnvironment)).map (fun s => s.name)) stackArg =
            Except.ok idx →
        ∃ s, (allStacks.filter (filterByEnvironmentFuzzy flagEnvironment)).get? idx =
            some s ∧
          stack allStacks flagEnvironment stackArg fuzzyFind = Except.ok s)
    ∧ (∀ e₁ e₂, fuzzyFind ((allStacks.filter
          (filterByEnvironmentExact flagEnvironment)).map (fun s => s.name)) stackArg =
            Except.error e₁ →
        fuzzyFind ((allStacks.filter
          (filterByEnvironmentFuzzy flagEnvironment)).map (fun s => s.name)) stackArg =
            Except.error e₂ →
        stack allStacks flagEnvironment stackArg fuzzyFind = Except.error e₂) := by
  refine ⟨?_, ?_, ?_, ?_, ?_⟩
  · intro s
    rw [List.mem_filter]
    unfold filterByEnvironmentExact
    by_cases h : flagEnvironment = "" <;> simp [h]
  · intro s
    rw [List.mem_filter]
    unfold filterByEnvironmentFuzzy
    by_cases h : flagEnvironment = "" <;>
      simp [h, List.isPrefixOf_iff_prefix]
  · intro idx hok
    have hlt := hvalid _ _ _ hok
    rw [List.length_map] at hlt
    cases hget : (allStacks.filter (filterByEnvironmentExact flagEnvironment)).get? idx with
    | none =>
      exfalso
      exact absurd (List.get?_eq_none.mp hget) (by omega)
    | some s =>
      refine ⟨s, rfl, ?_⟩
      simp only [stack, hok, hget]
  · intro e idx herr hok
    have hlt := hvalid _ _ _ hok
    rw [List.length_map] at hlt
    cases hget : (allStacks.filter (filterByEnvironmentFuzzy flagEnvironment)).get? idx with
    | none =>
      exfalso
      exact absurd (List.get?_eq_none.mp hget) (by omega)
    | some s =>
      refine ⟨s, rfl, ?_⟩
      simp only [stack, herr, hok, hget]
  · intro e₁ e₂ herr₁ herr₂
    simp only [stack, herr₁, herr₂]

/-- Witness for C3: a concrete one-stack list resolved through the
first-index fuzzy finder. -/
theorem claimC3_witness :
    stack [⟨"u1", "web", "production", "acme"⟩] "production" "web"
      (fun names _ => match names with
        | [] => Except.error "no match"
        | _ :: _ => Except.ok 0) =
    Except.ok ⟨"u1", "web", "production", "acme"⟩ := by
  have hvalid : ∀ (names : List String) (s : String) (idx : Nat),
      (fun names _ => match names with
        | [] => Except.error "no match"
        | _ :: _ => Except.ok 0 : List String → String → Except String Nat) names s =
        Except.ok idx → idx < names.length := by
    intro names s idx h
    cases names with
    | nil => cases h
    | cons a as =>
      cases h
      simp
  obtain ⟨s, hs, h⟩ := (claimC3 [⟨"u1", "web", "production", "acme"⟩] "production"
      "web" (fun names _ => match names with
        | [] => Except.error "no match"
        | _ :: _ => Except.ok 0) hvalid).2.2.1 0 (by decide)
  have h0 : (([⟨"u1", "web", "production", "acme"⟩] : List Stack).filter
      (filterByEnvironmentExact "production")).get? 0 =
      some ⟨"u1", "web", "production", "acme"⟩ := by decide
  rw [h0] at hs
  cases hs
  exact h

/-! ### C6 -/

/-- C6 (amended): `stacks ssl add` lists the existing certificates first;
when at least one exists and `--overwrite` is absent it fails with no
create or update call; otherwise, provided building the certificate from
the flags succeeds (an invalid or missing `--type` fails fatally with no
mutating call), it performs exactly one mutating call -
`CreateSslCertificate` when none exists, `UpdateSslCertificate` on the
the UUID of the first existing certificate when `--overwrite` is given. -/
theorem claimC6 (sslCertificates : List SslCertificate) (overwrite : Bool)
    (generated : Except String Unit) (apiError : SslCall → Option String) :
    (sslCertificates ≠ [] → overwrite = false →
      (addSSLCertificate sslCertificates overwrite generated apiError).calls = []
      ∧ (addSSLCertificate sslCertificates overwrite generated apiError).fatal.isSome = true)
    ∧ (generated = Except.ok () → sslCertificates = [] →
        (addSSLCertificate sslCertificates overwrite generated apiError).calls =
          [SslCall.createSslCertificate])
    ∧ (∀ c rest, sslCertificates = c :: rest → overwrite = true →
        generated = Except.ok () →
        (addSSLCertificate sslCertificates overwrite generated apiError).calls =
          [SslCall.updateSslCertificate c.uuid])
    ∧ (generated = Except.ok () → ¬(sslCertificates ≠ [] ∧ overwrite = false) →
        ((addSSLCertificate sslCertificates overwrite generated apiError).calls).length
          = 1) := by
  refine ⟨?_, ?_, ?_, ?_⟩
  · intro hne hov
    cases sslCertificates with
    | nil => exact absurd rfl hne
    | cons c rest => subst hov; simp [addSSLCertificate]
  · intro hgen hnil
    subst hnil
    subst hgen
    simp [addSSLCertificate]
  · intro c rest hcons hov hgen
    subst hcons
    subst hov
    subst hgen
    simp [addSSLCertificate]
  · intro hgen hno
    subst hgen
    cases sslCertificates with
    | nil => simp [addSSLCertificate]
    | cons c rest =>
      cases hov : overwrite with
      | false => exact absurd ⟨List.cons_ne_nil c rest, rfl⟩ (hov ▸ hno)
      | true => simp [addSSLCertificate]

/-- Witness for C6: with one existing certificate and `--overwrite`, the
single mutating call is the update of its UUID. -/
theorem claimC6_witness :
    (addSSLCertificate [⟨"olduuid"⟩] true (Except.ok ()) (fun _ => none)).calls =
      [SslCall.updateSslCertificate "olduuid"] :=
  (claimC6 [⟨"olduuid"⟩] true (Except.ok ()) (fun _ => none)).2.2.1
    ⟨"olduuid"⟩ [] rfl rfl rfl

/-- Counterexample to C6 as stated: with no existing certificate and no
`--overwrite`, an invalid certificate type makes `generateSSLCertificate`
fail, and the command terminates fatally with zero mutating calls instead
of the claimed create call. -/
theorem claimC6_counterexample :
    (addSSLCertificate [] false (Except.error "no type") (fun _ => none)).calls = []
    ∧ (addSSLCertificate [] false (Except.error "no type") (fun _ => none)).fatal =
        some "no type"
    ∧ ([] : List SslCall) ≠ [SslCall.createSslCertificate] :=
  ⟨by decide, by decide, by decide⟩

/-! ### C10 -/

theorem buildOrgNames_error (orgs : List Account) (h : ∃ o ∈ orgs, o.name = "") :
    buildOrgNames orgs = Except.error
      "one or more of the organizations you are a member of has no name. Please make sure you name the organizations" := by
  induction orgs with
  | nil => simp at h
  | cons o rest ih =>
    rcases h with ⟨o', ho', hname⟩
    rcases List.mem_cons.mp ho' with rfl | hmem
    · simp [buildOrgNames, hname]
    · by_cases hn : o.name = ""
      · simp [buildOrgNames, hn]
      · simp [buildOrgNames, hn, ih ⟨o', hmem, hname⟩, Except.map]

theorem buildOrgNames_ok (orgs : List Account) (h : ∀ o ∈ orgs, o.name ≠ "") :
    buildOrgNames orgs = Except.ok (orgs.map (fun o => o.name)) := by
  induction orgs with
  | nil => rfl
  | cons o rest ih =>
    have hn : o.name ≠ "" := h o (List.mem_cons_self o rest)
    simp [buildOrgNames, hn, ih (fun o' ho' => h o' (List.mem_cons_of_mem o ho')),
      Except.map]

/-- C10: when an `--org` value or a profile organization is set, `org`
fuzzy-matches the partial name against the names of all organizations and
returns the match; when any organization has an empty name it errors before
any fuzzy match (the outcome does not depend on the fuzzy finder at all);
and when neither source is set it resolves no organization and raises no
error. -/
theorem claimC10 (orgFlag profileOrganization : String) (orgs : List Account)
    (fuzzyFind altFind : List String → String → Except String Nat) :
    (orgFlag = "" → profileOrganization = "" →
      org orgFlag profileOrganization orgs fuzzyFind = Except.ok none)
    ∧ ((orgFlag ≠ "" ∨ profileOrganization ≠ "") → (∃ o ∈ orgs, o.name = "") →
        (org orgFlag profileOrganization orgs fuzzyFind).isOk = false
        ∧ org orgFlag profileOrganization orgs fuzzyFind =
            org orgFlag profileOrganization orgs altFind)
    ∧ ((orgFlag ≠ "" ∨ profileOrganization ≠ "") → (∀ o ∈ orgs, o.name ≠ "") →
        ∀ idx a, fuzzyFind (orgs.map (fun o => o.name))
            (if orgFlag ≠ "" then orgFlag else profileOrganization) = Except.ok idx →
          orgs.get? idx = some a →
          org orgFlag profileOrganization orgs fuzzyFind = Except.ok (some a))
    ∧ ((orgFlag ≠ "" ∨ profileOrganization ≠ "") → (∀ o ∈ orgs, o.name ≠ "") →
        ∀ e, fuzzyFind (orgs.map (fun o => o.name))
            (if orgFlag ≠ "" then orgFlag else profileOrganization) = Except.error e →
          org orgFlag profileOrganization orgs fuzzyFind = Except.error e) := by
  refine ⟨?_, ?_, ?_, ?_⟩
  · intro h1 h2
    subst h1
    subst h2
    simp [org]
  · intro hset hempty
    constructor
    · simp [org, if_pos hset, buildOrgNames_error orgs hempty, Except.isOk,
        Except.toBool]
    · simp only [org, if_pos hset, buildOrgNames_error orgs hempty]
  · intro hset hnames idx a hfind hget
    simp only [org, if_pos hset, buildOrgNames_ok orgs hnames, hfind, hget]
  · intro hset hnames e hfind
    simp only [org, if_pos hset, buildOrgNames_ok orgs hnames, hfind]

/-- Witness for C10: a concrete `--org` value resolved among two named
organizations through a concrete fuzzy finder. -/
theorem claimC10_witness :
    org "ac" "" [⟨"beta"⟩, ⟨"acme"⟩] (fun _ _ => Except.ok 1) =
      Except.ok (some ⟨"acme"⟩) :=
  (claimC10 "ac" "" [⟨"beta"⟩, ⟨"acme"⟩] (fun _ _ => Except.ok 1)
    (fun _ _ => Except.error "unused")).2.2.1 (by decide) (by decide) 1 ⟨"acme"⟩
    (by decide) (by decide)

/-! ### C9 -/

theorem filepathExt_suffix (s : String)
    (h : filepathExt s = ".formation") : ".formation".data <:+ s.data := by
  unfold filepathExt at h
  cases hd : s.data.reverse.dropWhile notExtStop with
  | nil =>
    rw [hd] at h
    dsimp only at h
    exact absurd h (by decide)
  | cons c cs =>
    rw [hd] at h
    dsimp only at h
    by_cases hc : c = '.'
    · rw [if_pos hc] at h
      have hdata : ('.' :: (s.data.reverse.takeWhile notExtStop).reverse) =
          ".formation".data := congrArg String.data h
      obtain ⟨t, ht⟩ : ∃ t, s.data.reverse.takeWhile notExtStop = t := ⟨_, rfl⟩
      have htk : t.reverse = "formation".data := by
        have := List.tail_eq_of_cons_eq hdata
        rw [ht] at this
        simpa using this
      have hsplit : s.data.reverse = t ++ c :: cs := by
        rw [← ht, ← hd, List.takeWhile_append_dropWhile]
      rw [← List.reverse_prefix]
      have hrev : (".formation".data).reverse = t ++ ['.'] := by
        have h1 : (".formation".data).reverse = ("formation".data).reverse ++ ['.'] := by
          decide
        rw [h1]
        have h2 : t = ("formation".data).reverse := by
          have := congrArg List.reverse htk
          simpa using this
        rw [h2]
      rw [hrev, hsplit, hc]
      exact ⟨cs, by simp⟩
    · rw [if_neg hc] at h
      exact absurd h (by decide)

theorem bundleTargetFile_suffix (formationName fileFlag : String) :
    ".formation".data <:+ (bundleTargetFile formationName fileFlag).data := by
  unfold bundleTargetFile
  by_cases h : filepathExt (if fileFlag = "" then formationName else fileFlag) =
      ".formation"
  · rw [if_neg (by simp [h])]
    exact filepathExt_suffix _ h
  · rw [if_pos h]
    rw [String.data_append]
    exact List.suffix_append _ _

/-- C9: `formations bundle download` always targets a file whose name ends
in `.formation` (defaulting to the formation name and appending the
extension exactly when the `filepath.Ext` of the given name differs from it),
and when that file exists and `--overwrite` is not set the command fails
with `fatalAlreadyExists` before the `StackEnvVars` or `Formations` server
fetches. -/
theorem claimC9 (formationName fileFlag : String) (overwrite : Bool)
    (fileOnDisk : String → Bool) (formationNames : List String) :
    ".formation".data <:+ (bundleTargetFile formationName fileFlag).data
    ∧ (fileFlag ≠ "" → filepathExt fileFlag ≠ ".formation" →
        bundleTargetFile formationName fileFlag = fileFlag ++ ".formation")
    ∧ (fileFlag ≠ "" → filepathExt fileFlag = ".formation" →
        bundleTargetFile formationName fileFlag = fileFlag)
    ∧ (formationName ≠ "" →
        fileOnDisk (bundleTargetFile formationName fileFlag) = true →
        overwrite = false →
        runBundleDownload formationName fileFlag overwrite fileOnDisk formationNames =
          [BundleStep.fatalAlreadyExists (bundleTargetFile formationName fileFlag)]
        ∧ BundleStep.fetchEnvVars ∉
            runBundleDownload formationName fileFlag overwrite fileOnDisk formationNames
        ∧ BundleStep.fetchFormations ∉
            runBundleDownload formationName fileFlag overwrite fileOnDisk formationNames) := by
  refine ⟨bundleTargetFile_suffix formationName fileFlag, ?_, ?_, ?_⟩
  · intro hne hext
    simp [bundleTargetFile, hne, hext]
  · intro hne hext
    simp [bundleTargetFile, hne, hext]
  · intro hname hdisk hov
    subst hov
    have hrun : runBundleDownload formationName fileFlag false fileOnDisk
        formationNames =
        [BundleStep.fatalAlreadyExists (bundleTargetFile formationName fileFlag)] := by
      simp [runBundleDownload, hname, hdisk]
    refine ⟨hrun, ?_, ?_⟩ <;> rw [hrun] <;> simp

/-- Witness for C9: a concrete download whose default target already exists
and `--overwrite` is absent fails before the fetches. -/
theorem claimC9_witness :
    runBundleDownload "myfm" "" false (fun _ => true) ["myfm"] =
      [BundleStep.fatalAlreadyExists (bundleTargetFile "myfm" "")]
    ∧ BundleStep.fetchEnvVars ∉
        runBundleDownload "myfm" "" false (fun _ => true) ["myfm"]
    ∧ BundleStep.fetchFormations ∉
        runBundleDownload "myfm" "" false (fun _ => true) ["myfm"] :=
  (claimC9 "myfm" "" false (fun _ => true) ["myfm"]).2.2.2
    (by decide) (by decide) rfl

/-! ### C7 -/

theorem runRendersLoop_files (outdir snapshotUID formationUID : String)
    (houtdir : outdir ≠ "") :
    ∀ (stencils : List RenderedStencil) (idx : Nat),
      runRendersLoop outdir snapshotUID formationUID stencils idx =
        ((List.enumFrom idx stencils).map (fun p =>
          (outdir ++ "/" ++ (pad3 (p.1 + 1) ++ "_" ++ p.2.filename),
           generateYamlComment p.2.filename snapshotUID formationUID p.2.sequence ++
             p.2.content)), "") := by
  intro stencils
  induction stencils with
  | nil => intro idx; rfl
  | cons v rest ih =>
    intro idx
    simp only [runRendersLoop, if_pos houtdir, ih (idx + 1), List.enumFrom,
      List.map_cons, filepathJoin, if_neg houtdir]

theorem runRendersLoop_stdout (snapshotUID formationUID : String) :
    ∀ (stencils : List RenderedStencil) (idx : Nat),
      runRendersLoop "" snapshotUID formationUID stencils idx =
        ([], ((List.enumFrom idx stencils).map (fun p =>
          "\n---\n" ++ generateYamlComment (pad3 (p.1 + 1) ++ "_" ++ p.2.filename)
            snapshotUID formationUID p.2.sequence ++
            "\n" ++ p.2.content)).foldr (fun a b => a ++ b) "") := by
  intro stencils
  induction stencils with
  | nil => intro idx; rfl
  | cons v rest ih =>
    intro idx
    simp only [runRendersLoop, ih (idx + 1), List.enumFrom, List.map_cons,
      List.foldr_cons, filepathJoin, if_pos rfl, ite_false, ite_true,
      reduceIte]
    simp [filepathJoin]

/-- C7 (amended): with a non-empty `--outdir`, each rendered stencil is
written to `outdir` under its 1-based three-digit-padded position, an
underscore and the stencil filename, with the four-line comment header
(built on the plain stencil filename) prepended to its content, and
nothing goes to stdout; with an empty `--outdir`, all stencils are printed
concatenated, each preceded by a `---` separator line and a comment header
that instead names the sequence-prefixed file (`NNN_filename`) and is
followed by one extra newline before the content. -/
theorem claimC7 (outdir snapshotUID formationUID : String)
    (stencils : List RenderedStencil) (houtdir : outdir ≠ "") :
    (runRendersContent outdir snapshotUID formationUID stencils).1 =
      stencils.enum.map (fun p =>
        (outdir ++ "/" ++ (pad3 (p.1 + 1) ++ "_" ++ p.2.filename),
         generateYamlComment p.2.filename snapshotUID formationUID p.2.sequence ++
           p.2.content))
    ∧ (runRendersContent outdir snapshotUID formationUID stencils).2 = ""
    ∧ (runRendersContent "" snapshotUID formationUID stencils).1 = []
    ∧ (runRendersContent "" snapshotUID formationUID stencils).2 =
        (stencils.enum.map (fun p =>
          "\n---\n" ++ generateYamlComment (pad3 (p.1 + 1) ++ "_" ++ p.2.filename)
            snapshotUID formationUID p.2.sequence ++
            "\n" ++ p.2.content)).foldr (fun a b => a ++ b) "" := by
  refine ⟨?_, ?_, ?_, ?_⟩
  · rw [runRendersContent, runRendersLoop_files outdir snapshotUID formationUID
      houtdir stencils 0]
    rfl
  · rw [runRendersContent, runRendersLoop_files outdir snapshotUID formationUID
      houtdir stencils 0]
  · rw [runRendersContent, runRendersLoop_stdout snapshotUID formationUID stencils 0]
  · rw [runRendersContent, runRendersLoop_stdout snapshotUID formationUID stencils 0]
    rfl

set_option maxRecDepth 4000 in
/-- Witness for C7 at one concrete stencil: the file written into `out` and
the stdout rendering of the same stencil. -/
theorem claimC7_witness :
    (runRendersContent "out" "sn" "fm" [⟨"a.yml", "c", 1⟩]).1 =
      [("out/001_a.yml",
        "# Stencil: a.yml\n# Formation: fm\n# Snapshot: sn\n# Sequence: 1\nc")] := by
  have h := (claimC7 "out" "sn" "fm" [⟨"a.yml", "c", 1⟩] (by decide)).1
  rw [h]
  decide

set_option maxRecDepth 4000 in
/-- Counterexample to C7 as stated: in stdout mode the comment block is not
the same as the one written in file mode - the file written for the stencil
contains the comment block naming `a.yml`, while the stdout output does not
contain that block anywhere (its comment names `001_a.yml` instead). -/
theorem claimC7_counterexample :
    (runRendersContent "out" "sn" "fm" [⟨"a.yml", "c", 1⟩]).1 =
      [("out/001_a.yml", generateYamlComment "a.yml" "sn" "fm" 1 ++ "c")]
    ∧ ¬ (generateYamlComment "a.yml" "sn" "fm" 1).data <:+:
        ((runRendersContent "" "sn" "fm" [⟨"a.yml", "c", 1⟩]).2).data :=
  ⟨by decide, by decide⟩

/-! ### C8 -/

theorem sortBy_strLt_sorted (l : List String) :
    (sortBy strLt l).Pairwise (fun a b => strLt b a = false) :=
  pairwise_sortBy (fun a b => strLt b a = false) strLt
    (fun _ _ h => strLt_asymm h)
    (fun _ _ h => h)
    (fun _ _ _ h1 h2 => strLt_notlt_trans h2 h1) l

theorem searchEq_sorted_mem (l : List String) (x : String)
    (hsort : l.Pairwise (fun a b => strLt b a = false))
    (hlow : ∀ a ∈ l, lowerStr a = a) :
    (searchEq l x = true ↔ x ∈ l) := by
  induction l with
  | nil => simp [searchEq]
  | cons a rest ih =>
    rcases List.pairwise_cons.mp hsort with ⟨ha, hrest⟩
    have hla : lowerStr a = a := hlow a (List.mem_cons_self a rest)
    by_cases h : strLt a x = true
    · rw [show searchEq (a :: rest) x = searchEq rest x from by simp [searchEq, h]]
      rw [ih hrest (fun b hb => hlow b (List.mem_cons_of_mem a hb))]
      constructor
      · exact fun hx => List.mem_cons_of_mem a hx
      · intro hx
        rcases List.mem_cons.mp hx with hxa | hx2
        · rw [hxa, strLt_irrefl] at h
          cases h
        · exact hx2
    · have hfalse : strLt a x = false := Bool.eq_false_iff.mpr h
      rw [show searchEq (a :: rest) x = (lowerStr a == x) from by
        simp [searchEq, hfalse]]
      rw [hla]
      constructor
      · intro hbeq
        have hax : a = x := by simpa using hbeq
        rw [← hax]
        exact List.mem_cons_self a rest
      · intro hx
        rcases List.mem_cons.mp hx with hxa | hx2
        · simp [hxa]
        · have h1 : strLt x a = false := ha x hx2
          have h2 : a = x := strLt_antisymm hfalse h1
          simp [h2]

theorem searchEq_lower_eq (args : List String) (x : String) :
    searchEq (sortBy strLt (args.map lowerStr)) (lowerStr x) =
      (args.map lowerStr).contains (lowerStr x) := by
  have hsort := sortBy_strLt_sorted (args.map lowerStr)
  have hlow : ∀ a ∈ sortBy strLt (args.map lowerStr), lowerStr a = a := by
    intro a ha
    have hmem : a ∈ args.map lowerStr := ((sortBy_perm strLt _).mem_iff).mp ha
    rcases List.mem_map.mp hmem with ⟨b, _, hb⟩
    rw [← hb]
    exact lowerStr_idem b
  have hiff := searchEq_sorted_mem (sortBy strLt (args.map lowerStr)) (lowerStr x)
    hsort hlow
  by_cases h : lowerStr x ∈ args.map lowerStr
  · have h1 : searchEq (sortBy strLt (args.map lowerStr)) (lowerStr x) = true :=
      hiff.mpr (((sortBy_perm strLt _).mem_iff).mpr h)
    have h2 : (args.map lowerStr).contains (lowerStr x) = true :=
      List.elem_iff.mpr h
    rw [h1, h2]
  · have h1 : searchEq (sortBy strLt (args.map lowerStr)) (lowerStr x) = false :=
      Bool.eq_false_iff.mpr
        (fun hc => h (((sortBy_perm strLt _).mem_iff).mp (hiff.mp hc)))
    have h2 : (args.map lowerStr).contains (lowerStr x) = false :=
      Bool.eq_false_iff.mpr (fun hc => h (List.elem_iff.mp hc))
    rw [h1, h2]

theorem sortBy_snapshotsByDate_pairwise (l : List Snapshot) :
    (sortBy snapshotsByDateLess l).Pairwise
      (fun a b => b.triggeredAtUnix ≤ a.triggeredAtUnix) := by
  apply pairwise_sortBy (fun a b => b.triggeredAtUnix ≤ a.triggeredAtUnix)
    snapshotsByDateLess
  · intro x y h
    simpa [snapshotsByDateLess] using h
  · intro x y h
    simp only [snapshotsByDateLess, decide_eq_false_iff_not, not_le] at h
    exact le_of_lt h
  · intro x y z h₁ h₂
    exact le_trans h₂ h₁

theorem sortBy_formationByName_pairwise (l : List Formation) :
    (sortBy formationByNameLess l).Pairwise
      (fun a b => strLt b.name a.name = false) := by
  apply pairwise_sortBy (fun a b => strLt b.name a.name = false) formationByNameLess
  · intro x y h
    exact strLt_asymm h
  · intro x y h
    exact h
  · intro x y z h₁ h₂
    exact strLt_notlt_trans h₂ h₁

/-- C8 (amended): with name arguments, `snapshots list` retains exactly the
snapshots whose UID equals one of the arguments case-insensitively and
`formations list` retains exactly the formations whose name does (the
sorted-argument binary search is equivalent to plain case-insensitive
membership); the printed rows are those retained elements with a non-empty
UID (resp. name), but they are printed sorted - snapshots by `TriggeredAt`
descending, formations by name ascending - not in the order the server
returned them. -/
theorem claimC8 (snapshots : List Snapshot) (formations : List Formation)
    (args : List String) (_hne : args ≠ []) :
    runSnapshotsFilter snapshots args =
      snapshots.filter (fun i => (args.map lowerStr).contains (lowerStr i.uid))
    ∧ runListFormationsFilter formations args =
        formations.filter (fun i => (args.map lowerStr).contains (lowerStr i.name))
    ∧ (printSnapshotList (runSnapshotsFilter snapshots args)).Perm
        ((runSnapshotsFilter snapshots args).filter (fun a => a.uid != ""))
    ∧ (printSnapshotList (runSnapshotsFilter snapshots args)).Pairwise
        (fun a b => b.triggeredAtUnix ≤ a.triggeredAtUnix)
    ∧ (printFormationList (runListFormationsFilter formations args)).Perm
        ((runListFormationsFilter formations args).filter (fun a => a.name != ""))
    ∧ (printFormationList (runListFormationsFilter formations args)).Pairwise
        (fun a b => strLt b.name a.name = false) := by
  refine ⟨?_, ?_, ?_, ?_, ?_, ?_⟩
  · unfold runSnapshotsFilter
    apply List.filter_congr
    intro i _
    exact searchEq_lower_eq args i.uid
  · unfold runListFormationsFilter
    apply List.filter_congr
    intro i _
    exact searchEq_lower_eq args i.name
  · exact (sortBy_perm snapshotsByDateLess _).filter _
  · exact (sortBy_snapshotsByDate_pairwise _).sublist (List.filter_sublist _)
  · exact (sortBy_perm formationByNameLess _).filter _
  · exact (sortBy_formationByName_pairwise _).sublist (List.filter_sublist _)

/-- Witness for C8: the concrete filter of `snapshots list` with arguments
`b A` keeps exactly the case-insensitive UID matches. -/
theorem claimC8_witness :
    runSnapshotsFilter [⟨"B", 1⟩, ⟨"a", 2⟩, ⟨"c", 3⟩] ["b", "A"] =
      List.filter (fun i => ((["b", "A"].map lowerStr).contains (lowerStr i.uid)))
        [⟨"B", 1⟩, ⟨"a", 2⟩, ⟨"c", 3⟩] :=
  (claimC8 [⟨"B", 1⟩, ⟨"a", 2⟩, ⟨"c", 3⟩] [] ["b", "A"] (by decide)).1

/-- Counterexample to C8 as stated: the retained snapshots `B` (older) and
`a` (newer) are in server order in the filtered list, but the printed list
is date-sorted, so it does not keep the relative order of the server. -/
theorem claimC8_counterexample :
    runSnapshotsFilter [⟨"B", 1⟩, ⟨"a", 2⟩] ["b", "A"] = [⟨"B", 1⟩, ⟨"a", 2⟩]
    ∧ printSnapshotList (runSnapshotsFilter [⟨"B", 1⟩, ⟨"a", 2⟩] ["b", "A"]) =
        [⟨"a", 2⟩, ⟨"B", 1⟩]
    ∧ [(⟨"a", 2⟩ : Snapshot), ⟨"B", 1⟩] ≠ [⟨"B", 1⟩, ⟨"a", 2⟩] :=
  ⟨by decide, by decide, by decide⟩

end Cx
